import Mathlib

/-!
Verification development for `github_repo_analyzer.py`, a single-file CLI
tool that parses a GitHub URL, scans the repository tree, filters relevant
files, extracts dependencies from `package.json` / `requirements.txt`, and
asks an LLM for a summary which is persisted as a JSON artifact.

The Python source is shallowly embedded here.  Python strings are Lean
`String`s (lists of characters); Python dicts are association lists with
dict insertion semantics (last value wins, first insertion position kept);
HTTP and LLM calls are oracles passed as function arguments; a Python
exception is an `Except.error`; `None`-ish failure results are `Option`.
-/

namespace GhAnalyzer

/-! ## Generic character-list helpers -/

/-- Consume the literal `lit` from the front of `s`; return the rest on
success.  This is the building block for modelling Python's
`str.startswith`, regex literal matching and substring search. -/
def dropLit : List Char → List Char → Option (List Char)
  | [], s => some s
  | _ :: _, [] => none
  | c :: cs, d :: ds => if c = d then dropLit cs ds else none

/-- Python `s.startswith(pre)`. -/
def pyStartsWith (s pre : String) : Bool := (dropLit pre.data s.data).isSome

/-- Python `s.endswith(suffix)`. -/
def pyEndsWith (s suffix : String) : Bool :=
  (dropLit suffix.data.reverse s.data.reverse).isSome

/-! ## URL parser (`parse_github_url`)

The Python function applies `re.search` with
`r'git@github\.com:([^/]+)/([^/.]+)'` when the URL starts with `git@`,
and `r'github\.com/([^/]+)/([^/.]+)'` otherwise, raising
`ValueError("Invalid GitHub URL")` when the search fails (modelled as
`none`). -/

/-- The character class of the first capture group, regex `[^/]`. -/
def notSlash (c : Char) : Bool := !(c == '/')

/-- The character class of the second capture group, regex `[^/.]`. -/
def notSlashDot (c : Char) : Bool := !(c == '/') && !(c == '.')

/-- Match the `([^/]+)/([^/.]+)` part of either pattern at the current
position.  Both groups are greedy; since group 1 excludes `/` and must be
followed by a literal `/`, and nothing follows group 2, greedy matching is
exactly maximal-run matching with no backtracking. -/
def matchTail (s : List Char) : Option (String × String) :=
  match s.dropWhile notSlash with
  | [] => none
  | _ :: r2 =>
    if (s.takeWhile notSlash).isEmpty then none
    else if (r2.takeWhile notSlashDot).isEmpty then none
    else some (⟨s.takeWhile notSlash⟩, ⟨r2.takeWhile notSlashDot⟩)

/-- Model of `re.search`: try the pattern (literal prefix `lit` followed by the two
capture groups) at each start position, leftmost first. -/
def reSearch (lit : List Char) : List Char → Option (String × String)
  | [] =>
    match dropLit lit [] with
    | some r => matchTail r
    | none => none
  | c :: rest =>
    match dropLit lit (c :: rest) with
    | some r =>
      match matchTail r with
      | some m => some m
      | none => reSearch lit rest
    | none => reSearch lit rest

/-- The function `parse_github_url` (lines 18-35 of the source): returns
`(owner, repo)`, or `none` for the `ValueError("Invalid GitHub URL")`. -/
def parse_github_url (url : String) : Option (String × String) :=
  if pyStartsWith url "git@" then reSearch ("git@github.com:".data) url.data
  else reSearch ("github.com/".data) url.data

/-! ## Repository tree scanner (`get_repo_contents` / `scan_repo`)

The repository is modelled as the tree of answers the GitHub contents API
would give: a directory node carries `some children` when the listing
request for its path succeeds and `none` when it returns a non-success
status (`get_repo_contents` then returns `[]`). -/

inductive FsNode where
  | file (name path downloadUrl : String) : FsNode
  | dir (name path : String) (children : Option (List FsNode)) : FsNode

/-- Accessor for `item["name"]`. -/
def fname : FsNode → String
  | FsNode.file n _ _ => n
  | FsNode.dir n _ _ => n

/-- Accessor for `item["download_url"]` (only file entries ever reach its use sites). -/
def fdownload : FsNode → String
  | FsNode.file _ _ u => u
  | FsNode.dir _ _ _ => ""

/-- Test for `item["type"] == "file"`. -/
def isFile : FsNode → Bool
  | FsNode.file _ _ _ => true
  | FsNode.dir _ _ _ => false

/-- The function `get_repo_contents` (lines 38-47): the JSON array on status 200, `[]`
on any other status (the `none` listing). -/
def get_repo_contents (listing : Option (List FsNode)) : List FsNode :=
  listing.getD []

/-- The loop body of `scan_directory` (lines 54-68) over the items of one
listing.  A file is accumulated; for a directory the scan recurses into its
listing: a failed (`none`) listing makes `get_repo_contents` return `[]`,
so `scan_directory` returns `[]` for that path (`if not items: return []`)
and nothing is accumulated (`if dir_items:` skips the empty extend, which
is also what unconditional extending would do). -/
def scanList : List FsNode → List FsNode
  | [] => []
  | FsNode.file n p u :: rest => FsNode.file n p u :: scanList rest
  | FsNode.dir _ _ none :: rest => scanList rest
  | FsNode.dir _ _ (some items) :: rest =>
      (if items.isEmpty then [] else scanList items) ++ scanList rest

/-- The function `scan_repo` (lines 50-74): `scan_directory("")` on the root listing. -/
def scan_repo (root : Option (List FsNode)) : List FsNode :=
  match root with
  | none => []
  | some items => if items.isEmpty then [] else scanList items

/-- Claim-side description of the scanner for C7: depth-first traversal
collecting exactly the file entries, treating a failed listing as an empty
sub-tree. -/
def dfsFiles : List FsNode → List FsNode
  | [] => []
  | FsNode.file n p u :: rest => FsNode.file n p u :: dfsFiles rest
  | FsNode.dir _ _ none :: rest => dfsFiles rest
  | FsNode.dir _ _ (some items) :: rest => dfsFiles items ++ dfsFiles rest

/-- Claim-side description at the root. -/
def dfsFilesRoot (root : Option (List FsNode)) : List FsNode :=
  match root with
  | none => []
  | some items => dfsFiles items

/-! ## Relevance filter (`extract_relevant_files`) -/

/-- The fixed allow-list of line 81. -/
def relevantSuffixes : List String :=
  ["README.md", ".py", ".js", ".java", "package.json", "requirements.txt", "Dockerfile"]

/-- The function `extract_relevant_files` (lines 77-84): keep entries whose name
`endswith` one of the literals, in input order. -/
def extract_relevant_files : List FsNode → List FsNode
  | [] => []
  | f :: rest =>
    if relevantSuffixes.any (fun ext => pyEndsWith (fname f) ext) then
      f :: extract_relevant_files rest
    else extract_relevant_files rest

/-! ## JSON values and `json.loads`

`extract_dependencies` feeds the text of `package.json` to `json.loads`.
We embed a JSON value type and an executable parser modelling `json.loads`
(objects keep Python dict semantics: insertion order, last value wins at
the first key's position; number lexemes are kept as strings since no
claim depends on numeric values; `none` is `json.JSONDecodeError`). -/

inductive JValue where
  | jstr (s : String)
  | jnum (lexeme : String)
  | jbool (b : Bool)
  | jnull
  | jarr (items : List JValue)
  | jobj (fields : List (String × JValue))

/-- Opening brace character. -/
def lbr : Char := Char.ofNat 123

/-- Closing brace character. -/
def rbr : Char := Char.ofNat 125

/-- JSON whitespace accepted between tokens. -/
def jsonWs (c : Char) : Bool := c == ' ' || c == '\t' || c == '\n' || c == '\r'

def skipWs (l : List Char) : List Char := l.dropWhile jsonWs

def hexVal (c : Char) : Option Nat :=
  if '0' ≤ c ∧ c ≤ '9' then some (c.toNat - 48)
  else if 'a' ≤ c ∧ c ≤ 'f' then some (c.toNat - 87)
  else if 'A' ≤ c ∧ c ≤ 'F' then some (c.toNat - 55)
  else none

def escDecode (c : Char) : Option Char :=
  if c = '"' then some '"'
  else if c = '\\' then some '\\'
  else if c = '/' then some '/'
  else if c = 'b' then some (Char.ofNat 8)
  else if c = 'f' then some (Char.ofNat 12)
  else if c = 'n' then some '\n'
  else if c = 'r' then some '\r'
  else if c = 't' then some '\t'
  else none

/-- Decode one escape sequence (the backslash already consumed): short
escapes, and `\uXXXX` with surrogate pairs combined (a lone surrogate is
rejected). -/
def parseEscape : List Char → Option (Char × List Char)
  | [] => none
  | 'u' :: h1 :: h2 :: h3 :: h4 :: rest2 =>
    match hexVal h1, hexVal h2, hexVal h3, hexVal h4 with
    | some a, some b, some c2, some d =>
      let n := ((a * 16 + b) * 16 + c2) * 16 + d
      if 0xD800 ≤ n ∧ n < 0xDC00 then
        match rest2 with
        | '\\' :: 'u' :: g1 :: g2 :: g3 :: g4 :: rest3 =>
          match hexVal g1, hexVal g2, hexVal g3, hexVal g4 with
          | some a2, some b2, some c3, some d2 =>
            let m := ((a2 * 16 + b2) * 16 + c3) * 16 + d2
            if 0xDC00 ≤ m ∧ m < 0xE000 then
              some (Char.ofNat (0x10000 + (n - 0xD800) * 0x400 + (m - 0xDC00)), rest3)
            else none
          | _, _, _, _ => none
        | _ => none
      else if 0xDC00 ≤ n ∧ n < 0xE000 then none
      else some (Char.ofNat n, rest2)
    | _, _, _, _ => none
  | e :: rest2 =>
    match escDecode e with
    | some ec => some (ec, rest2)
    | none => none

/-- Parse the body of a JSON string (the opening quote already consumed):
plain characters and escapes.  Every step consumes at least one character,
so a `fuel` of the input length suffices (callers pass exactly that). -/
def parseStringBody : Nat → List Char → Option (String × List Char)
  | _, [] => none
  | 0, _ :: _ => none
  | fuel + 1, c :: rest =>
    if c = '"' then some ("", rest)
    else if c = '\\' then
      match parseEscape rest with
      | some (ec, rest2) =>
        match parseStringBody fuel rest2 with
        | some (s, r) => some (String.singleton ec ++ s, r)
        | none => none
      | none => none
    else if c.toNat < 32 then none
    else
      match parseStringBody fuel rest with
      | some (s, r) => some (String.singleton c ++ s, r)
      | none => none

/-- Exponent part of a number lexeme (strict: `e`/`E`, optional sign, at
least one digit), finishing the lexeme. -/
def parseExp (lex : List Char) : List Char → Option (JValue × List Char)
  | [] => some (JValue.jnum ⟨lex⟩, [])
  | c :: rest =>
    if c = 'e' ∨ c = 'E' then
      let (sg, l2) :=
        match rest with
        | '+' :: r => ((['+'] : List Char), r)
        | '-' :: r => ((['-'] : List Char), r)
        | _ => ([], rest)
      let es := l2.takeWhile Char.isDigit
      let r3 := l2.dropWhile Char.isDigit
      if es.isEmpty then none
      else some (JValue.jnum ⟨lex ++ c :: (sg ++ es)⟩, r3)
    else some (JValue.jnum ⟨lex⟩, c :: rest)

/-- Fraction part of a number lexeme (strict: `.` plus at least one
digit), then the exponent. -/
def parseFrac (lex : List Char) (l : List Char) : Option (JValue × List Char) :=
  match l with
  | '.' :: r =>
    let fs := r.takeWhile Char.isDigit
    let r2 := r.dropWhile Char.isDigit
    if fs.isEmpty then none
    else parseExp (lex ++ '.' :: fs) r2
  | _ => parseExp lex l

/-- Number lexeme, per the grammar of CPython's scanner
(`-? (0 | [1-9][0-9]*) (\.[0-9]+)? ([eE][+-]?[0-9]+)?`): an integer part
beginning with `0` is just `0`, so in `01` the `1` is left behind and the
enclosing parse fails — `json.loads` rejects leading zeros.  (No claim
depends on numeric values; the lexeme is kept.) -/
def parseNumber (l : List Char) : Option (JValue × List Char) :=
  let (sgn, l1) :=
    match l with
    | '-' :: r => ((['-'] : List Char), r)
    | _ => ([], l)
  match l1 with
  | '0' :: r1 => parseFrac (sgn ++ ['0']) r1
  | c :: _ =>
    if c.isDigit then
      parseFrac (sgn ++ l1.takeWhile Char.isDigit) (l1.dropWhile Char.isDigit)
    else none
  | [] => none

/-- Python dict insertion: a repeated key keeps its first position and
takes the last value. -/
def dictInsert : List (String × JValue) → String → JValue → List (String × JValue)
  | [], k, v => [(k, v)]
  | (k0, v0) :: rest, k, v =>
    if k0 = k then (k0, v) :: rest else (k0, v0) :: dictInsert rest k v

/-- Pending parse obligation: a value, the members of an object (after the
first `ws` was skipped and emptiness was excluded), or the items of an
array. -/
inductive ParseReq where
  | val (l : List Char)
  | objFields (l : List Char) (acc : List (String × JValue))
  | arrItems (l : List Char) (acc : List JValue)

/-- Recursive-descent JSON parser.  The `fuel` argument makes the
recursion structural (and hence kernel-evaluable); `jsonLoads` passes
`2 * length + 2`, which bounds the recursion depth of any input. -/
def parseMut : Nat → ParseReq → Option (JValue × List Char)
  | 0, _ => none
  | fuel + 1, ParseReq.val l =>
    match l with
    | [] => none
    | c :: rest =>
      if c = '"' then
        match parseStringBody rest.length rest with
        | some (s, r) => some (JValue.jstr s, r)
        | none => none
      else if c = lbr then
        match skipWs rest with
        | d :: r2 =>
          if d = rbr then some (JValue.jobj [], r2)
          else parseMut fuel (ParseReq.objFields (d :: r2) [])
        | [] => none
      else if c = '[' then
        match skipWs rest with
        | d :: r2 =>
          if d = ']' then some (JValue.jarr [], r2)
          else parseMut fuel (ParseReq.arrItems (d :: r2) [])
        | [] => none
      else if c = 't' then
        match dropLit ['r', 'u', 'e'] rest with
        | some r => some (JValue.jbool true, r)
        | none => none
      else if c = 'f' then
        match dropLit ['a', 'l', 's', 'e'] rest with
        | some r => some (JValue.jbool false, r)
        | none => none
      else if c = 'n' then
        match dropLit ['u', 'l', 'l'] rest with
        | some r => some (JValue.jnull, r)
        | none => none
      else if c = 'N' then
        match dropLit ['a', 'N'] rest with
        | some r => some (JValue.jnum "NaN", r)
        | none => none
      else if c = 'I' then
        match dropLit ['n', 'f', 'i', 'n', 'i', 't', 'y'] rest with
        | some r => some (JValue.jnum "Infinity", r)
        | none => none
      else if c = '-' then
        match rest with
        | 'I' :: rest2 =>
          match dropLit ['n', 'f', 'i', 'n', 'i', 't', 'y'] rest2 with
          | some r => some (JValue.jnum "-Infinity", r)
          | none => none
        | _ => parseNumber (c :: rest)
      else parseNumber (c :: rest)
  | fuel + 1, ParseReq.objFields l acc =>
    match l with
    | c :: rest =>
      if c = '"' then
        match parseStringBody rest.length rest with
        | some (k, r1) =>
          match skipWs r1 with
          | ':' :: r2 =>
            match parseMut fuel (ParseReq.val (skipWs r2)) with
            | some (v, r3) =>
              match skipWs r3 with
              | ',' :: r4 =>
                parseMut fuel (ParseReq.objFields (skipWs r4) (dictInsert acc k v))
              | d :: r4 =>
                if d = rbr then some (JValue.jobj (dictInsert acc k v), r4) else none
              | [] => none
            | none => none
          | _ => none
        | none => none
      else none
    | [] => none
  | fuel + 1, ParseReq.arrItems l acc =>
    match parseMut fuel (ParseReq.val l) with
    | some (v, r1) =>
      match skipWs r1 with
      | ',' :: r2 => parseMut fuel (ParseReq.arrItems (skipWs r2) (acc ++ [v]))
      | ']' :: r2 => some (JValue.jarr (acc ++ [v]), r2)
      | _ => none
    | none => none

/-- Model of `json.loads`: parse one value surrounded by optional whitespace. -/
def jsonLoads (s : String) : Option JValue :=
  match parseMut (2 * s.data.length + 2) (ParseReq.val (skipWs s.data)) with
  | some (v, rest) => if (skipWs rest).isEmpty then some v else none
  | none => none

/-! ## Python string and dict helpers used by `extract_dependencies` -/

/-- Characters removed by Python `str.strip()`: every Unicode whitespace
character — the ASCII controls 9-13 and 28-31, the space, NEL, NBSP, the
Ogham space mark, the U+2000-200A spaces, the line and paragraph
separators, the narrow no-break space, the mathematical space and the
ideographic space. -/
def pyWsChar (c : Char) : Bool :=
  decide ((9 ≤ c.toNat ∧ c.toNat ≤ 13) ∨ (28 ≤ c.toNat ∧ c.toNat ≤ 32) ∨
    c.toNat = 0x85 ∨ c.toNat = 0xA0 ∨ c.toNat = 0x1680 ∨
    (0x2000 ≤ c.toNat ∧ c.toNat ≤ 0x200A) ∨ c.toNat = 0x2028 ∨ c.toNat = 0x2029 ∨
    c.toNat = 0x202F ∨ c.toNat = 0x205F ∨ c.toNat = 0x3000)

/-- Python `s.strip()`. -/
def pyStrip (s : String) : String :=
  ⟨((s.data.dropWhile pyWsChar).reverse.dropWhile pyWsChar).reverse⟩

/-- Python `s.replace(old, '')` for a one-character pattern `old`: every
occurrence is removed. -/
def pyReplace1 (s : String) (old : Char) : String :=
  ⟨s.data.filter (fun c => !(c == old))⟩

/-- Model of `version.replace('^', '').replace('~', '')` (line 105): note that this
removes every `^` and `~`, wherever they occur. -/
def stripMarkers (v : String) : String := pyReplace1 (pyReplace1 v '^') '~'

/-- Python `s.split(sep)` for a nonempty separator `s0 :: srest`:
non-overlapping leftmost splitting, empty parts kept.  The `fuel` is the
input length, which the recursion never exhausts. -/
def pySplitAux (s0 : Char) (srest : List Char) : Nat → List Char → List (List Char)
  | _, [] => [[]]
  | 0, l => [l]
  | fuel + 1, c :: rest =>
    if c = s0 then
      match dropLit srest rest with
      | some r2 => [] :: pySplitAux s0 srest fuel r2
      | none =>
        match pySplitAux s0 srest fuel rest with
        | [] => [[c]]
        | p :: ps => (c :: p) :: ps
    else
      match pySplitAux s0 srest fuel rest with
      | [] => [[c]]
      | p :: ps => (c :: p) :: ps

def pySplit (s : String) (s0 : Char) (srest : List Char) : List String :=
  (pySplitAux s0 srest s.data.length s.data).map (fun l => (⟨l⟩ : String))

/-- First-match association lookup in a string-keyed map (the maps are
built with dict semantics, so keys are unique). -/
def lookupMap : List (String × String) → String → Option String
  | [], _ => none
  | (k, v) :: rest, key => if k = key then some v else lookupMap rest key

def jAssoc : List (String × JValue) → String → Option JValue
  | [], _ => none
  | (k, v) :: rest, key => if k = key then some v else jAssoc rest key

/-- Substring test, for Python `key in s` on a string. -/
def strContainsAux (needle : List Char) : List Char → Bool
  | [] => (dropLit needle []).isSome
  | c :: rest => (dropLit needle (c :: rest)).isSome || strContainsAux needle rest

/-- Python `'dependencies' in package_json`: key test on a dict, membership
on a list, substring test on a string, `TypeError` otherwise. -/
def pyContainsKey (v : JValue) (k : String) : Except String Bool :=
  match v with
  | JValue.jobj fields => Except.ok (fields.any (fun p => p.1 == k))
  | JValue.jarr items =>
    Except.ok (items.any (fun x =>
      match x with
      | JValue.jstr s => s == k
      | _ => false))
  | JValue.jstr s => Except.ok (strContainsAux k.data s.data)
  | _ => Except.error "TypeError: argument is not iterable"

/-- Python `package_json['dependencies']`. -/
def pySubscript (v : JValue) (k : String) : Except String JValue :=
  match v with
  | JValue.jobj fields =>
    match jAssoc fields k with
    | some x => Except.ok x
    | none => Except.error "KeyError"
  | _ => Except.error "TypeError: value is not subscriptable by a string"

/-- Python `.items()`. -/
def pyItems (v : JValue) : Except String (List (String × JValue)) :=
  match v with
  | JValue.jobj fields => Except.ok fields
  | _ => Except.error "AttributeError: no attribute items"

/-! ## Dependency extractor (`extract_dependencies`, lines 97-130) -/

structure Dep where
  name : String
  version : String
  description : String
deriving DecidableEq

def frontendDescr : String := "Used in the frontend. Part of the React/Node.js ecosystem."

def backendDescr : String := "Used in the Python backend/agent system."

/-- The `for name, version in package_json['dependencies'].items()` loop
(lines 103-110), appending to the accumulated list.  A non-string version
raises `AttributeError` on `.replace`, which the surrounding
`except json.JSONDecodeError` does not catch. -/
def pkgLoop (acc : List Dep) : List (String × JValue) → Except String (List Dep)
  | [] => Except.ok acc
  | (nm, v) :: rest =>
    match v with
    | JValue.jstr s => pkgLoop (acc ++ [⟨nm, stripMarkers s, frontendDescr⟩]) rest
    | _ => Except.error "AttributeError: no attribute replace"

/-- The `for line in files_data['requirements.txt'].split('\n')` loop
(lines 118-128), appending to the accumulated list. -/
def reqLoop (acc : List Dep) : List String → List Dep
  | [] => acc
  | line :: rest =>
    if pyStrip line = "" then reqLoop acc rest
    else if pyStartsWith line "#" then reqLoop acc rest
    else
      match pySplit line '=' ['='] with
      | [nm, ver] => reqLoop (acc ++ [⟨pyStrip nm, pyStrip ver, backendDescr⟩]) rest
      | _ => reqLoop acc rest

/-- The `package.json` section of `extract_dependencies` (lines 101-115):
the state of the `dependencies` list after the first block, or the
exception it raises.  A `json.JSONDecodeError` from `json.loads` is caught
by the `except` clause (the `none` branch) and contributes nothing. -/
def pkgStep (filesData : List (String × String)) : Except String (List Dep) :=
  match lookupMap filesData "package.json" with
  | none => Except.ok []
  | some content =>
    match jsonLoads content with
    | none => Except.ok []
    | some pj =>
      match pyContainsKey pj "dependencies" with
      | Except.error e => Except.error e
      | Except.ok false => Except.ok []
      | Except.ok true =>
        match pySubscript pj "dependencies" with
        | Except.error e => Except.error e
        | Except.ok dv =>
          match pyItems dv with
          | Except.error e => Except.error e
          | Except.ok items => pkgLoop [] items

/-- The function `extract_dependencies` (lines 97-130): the `package.json` section
followed by the `requirements.txt` section appending to the same list.
The Python function returns `{"dependencies": dependencies}`; since every
caller immediately takes the `"dependencies"` entry, the model returns the
list itself.  `Except.error` is an uncaught Python exception. -/
def extract_dependencies (filesData : List (String × String)) : Except String (List Dep) :=
  match pkgStep filesData with
  | Except.error e => Except.error e
  | Except.ok deps1 =>
    match lookupMap filesData "requirements.txt" with
    | none => Except.ok deps1
    | some content => Except.ok (reqLoop deps1 (pySplit content '\n' []))

/-! ### Claim-side descriptions of the extractor (C4, C5, C6) -/

/-- Claim-side per-line rule for `requirements.txt`: skip blank lines and
`#`-prefixed lines, emit a dependency exactly for lines whose `==`-split
has two parts, drop every other line. -/
def reqLineSpec (line : String) : Option Dep :=
  if pyStrip line = "" then none
  else if pyStartsWith line "#" then none
  else
    match pySplit line '=' ['='] with
    | [nm, ver] => some ⟨pyStrip nm, pyStrip ver, backendDescr⟩
    | _ => none

/-- Claim-side value of a `package.json` dependency entry. -/
def pkgEntrySpec (p : String × JValue) : Option Dep :=
  match p.2 with
  | JValue.jstr s => some ⟨p.1, stripMarkers s, frontendDescr⟩
  | _ => none

/-- Claim-side list of `package.json`-derived entries, in declaration
order. -/
def pkgDerivedSpec (filesData : List (String × String)) : List Dep :=
  match lookupMap filesData "package.json" with
  | none => []
  | some c =>
    match jsonLoads c with
    | some (JValue.jobj fields) =>
      match jAssoc fields "dependencies" with
      | some (JValue.jobj depFields) => depFields.filterMap pkgEntrySpec
      | _ => []
    | _ => []

/-- Claim-side list of `requirements.txt`-derived entries, in line order. -/
def reqDerivedSpec (filesData : List (String × String)) : List Dep :=
  match lookupMap filesData "requirements.txt" with
  | none => []
  | some c => (pySplit c '\n' []).filterMap reqLineSpec

/-! ## `json.dumps(..., indent=2)`

`summarize_repo` serializes the file-content map into its prompt and the
analysis result into the output file with `json.dumps(obj, indent=2)`
(default `ensure_ascii=True`). -/

def hexDigitChar (n : Nat) : Char :=
  if n < 10 then Char.ofNat (48 + n) else Char.ofNat (87 + n)

def hex4 (n : Nat) : String :=
  ⟨[hexDigitChar (n / 4096 % 16), hexDigitChar (n / 256 % 16),
    hexDigitChar (n / 16 % 16), hexDigitChar (n % 16)]⟩

/-- One character of a serialized JSON string: short escapes for the
usual controls, `\uXXXX` (with surrogate pairs) for other controls and
non-ASCII, the character itself otherwise. -/
def escChar (c : Char) : String :=
  if c = '"' then "\\\""
  else if c = '\\' then "\\\\"
  else if c = '\n' then "\\n"
  else if c = '\r' then "\\r"
  else if c = '\t' then "\\t"
  else if c.toNat = 8 then "\\b"
  else if c.toNat = 12 then "\\f"
  else if c.toNat < 32 ∨ 127 < c.toNat then
    if c.toNat ≤ 0xFFFF then "\\u" ++ hex4 c.toNat
    else "\\u" ++ hex4 (0xD800 + (c.toNat - 0x10000) / 0x400)
      ++ "\\u" ++ hex4 (0xDC00 + (c.toNat - 0x10000) % 0x400)
  else String.singleton c

def escStr (s : String) : String := s.data.foldr (fun c acc => escChar c ++ acc) ""

def dumpStr (s : String) : String := "\"" ++ escStr s ++ "\""

/-- Indentation of `2 * n` spaces. -/
def nspaces : Nat → String
  | 0 => ""
  | n + 1 => "  " ++ nspaces n

mutual

/-- Serialize a value whose surrounding context sits at nesting level
`lvl` (`indent=2` style: members on their own lines, `": "` after keys,
`",\n"` between members, empty containers inline). -/
def dumpVal (lvl : Nat) : JValue → String
  | JValue.jstr s => dumpStr s
  | JValue.jnum lx => lx
  | JValue.jbool b => if b then "true" else "false"
  | JValue.jnull => "null"
  | JValue.jarr [] => "[]"
  | JValue.jarr (v :: vs) =>
    "[\n" ++ dumpArrItems (lvl + 1) (v :: vs) ++ "\n" ++ nspaces lvl ++ "]"
  | JValue.jobj [] => "\x7b\x7d"
  | JValue.jobj (f :: fs) =>
    "\x7b\n" ++ dumpObjItems (lvl + 1) (f :: fs) ++ "\n" ++ nspaces lvl ++ "\x7d"

def dumpArrItems (lvl : Nat) : List JValue → String
  | [] => ""
  | [v] => nspaces lvl ++ dumpVal lvl v
  | v :: v2 :: vs =>
    nspaces lvl ++ dumpVal lvl v ++ ",\n" ++ dumpArrItems lvl (v2 :: vs)

def dumpObjItems (lvl : Nat) : List (String × JValue) → String
  | [] => ""
  | [(k, v)] => nspaces lvl ++ dumpStr k ++ ": " ++ dumpVal lvl v
  | (k, v) :: f2 :: fs =>
    nspaces lvl ++ dumpStr k ++ ": " ++ dumpVal lvl v ++ ",\n" ++ dumpObjItems lvl (f2 :: fs)

end

/-- Model of `json.dumps(v, indent=2)`. -/
def pyJsonDumps (v : JValue) : String := dumpVal 0 v

/-! ## Summarizer (`summarize_repo`, lines 133-186) -/

/-- The object returned by `model.generate_content`: its truthiness
(tested by `if response:`) and its `.text`. -/
structure LlmResponse where
  truthy : Bool
  text : String

/-- Outcome of `summarize_repo`: the returned string, and the content
written to the fixed-path artifact `repo_analysis.json` (`none` when the
file is not written). -/
structure SummarizeResult where
  ret : String
  written : Option String

/-- The file-content map as the JSON value `json.dumps` receives. -/
def filesJson (filesData : List (String × String)) : JValue :=
  JValue.jobj (filesData.map (fun p => (p.1, JValue.jstr p.2)))

/-- The prompt f-string of lines 152-162. -/
def buildPrompt (filesData : List (String × String)) : String :=
  "\n        The following are files from a GitHub repo. Summarize what the repo does.\n        Provide:\n        - Project purpose by file\n        - Key functionalities\n        - Tech stack/packages\n        - How to use it\n\n        Files:\n        "
    ++ pyJsonDumps (filesJson filesData) ++ "\n        "

/-- The dict serialized into `repo_analysis.json` (lines 169-172). -/
def depToJson (d : Dep) : JValue :=
  JValue.jobj [("name", JValue.jstr d.name), ("version", JValue.jstr d.version),
    ("description", JValue.jstr d.description)]

def outputJson (summary : String) (deps : List Dep) : JValue :=
  JValue.jobj [("summary", JValue.jstr summary),
    ("dependencies", JValue.jarr (deps.map depToJson))]

/-- The function `summarize_repo` (lines 133-186).  Everything from dependency
extraction to the write sits in one `try`; any exception — from
`extract_dependencies` or from the LLM call `genContent` — is caught and
turned into the string `"Error generating summary: ..."` with no file
written.  A falsy response returns `""` without writing; a truthy response
writes `json.dumps(output, indent=2)` to `repo_analysis.json` and returns
the same string. -/
def summarize_repo (genContent : String → Except String LlmResponse)
    (filesData : List (String × String)) : SummarizeResult :=
  match extract_dependencies filesData with
  | Except.error e => { ret := "Error generating summary: " ++ e, written := none }
  | Except.ok deps =>
    match genContent (buildPrompt filesData) with
    | Except.error e => { ret := "Error generating summary: " ++ e, written := none }
    | Except.ok response =>
      if response.truthy then
        let out := pyJsonDumps (outputJson response.text deps)
        { ret := out, written := some out }
      else
        { ret := "", written := none }

/-! ## Top-level pipeline (`analyze_github_repo`, lines 188-217) -/

/-- Python dict insertion for the file-content map comprehension
`{file["name"]: get_file_content(file["download_url"]) for ...}`. -/
def dictInsertStr : List (String × String) → String → String → List (String × String)
  | [], k, v => [(k, v)]
  | (k0, v0) :: rest, k, v =>
    if k0 = k then (k0, v) :: rest else (k0, v0) :: dictInsertStr rest k v

/-- The function `get_file_content` (lines 87-95): the body on status 200, `""` on any
other status (the `none` fetch). -/
def get_file_content (fetch : String → Option String) (url : String) : String :=
  (fetch url).getD ""

def buildFilesMap (fetch : String → Option String) (files : List FsNode) :
    List (String × String) :=
  files.foldl (fun m f => dictInsertStr m (fname f) (get_file_content fetch (fdownload f))) []

/-- The function `analyze_github_repo` (lines 188-217): parse, scan, filter, fetch,
summarize.  The `except` clause catches the parser's `ValueError` and
returns `None`; every other component degrades internally and cannot
raise. -/
def analyze_github_repo (root : Option (List FsNode)) (fetch : String → Option String)
    (genContent : String → Except String LlmResponse) (url : String) :
    Option SummarizeResult :=
  match parse_github_url url with
  | none => none
  | some _ =>
    let repoData := scan_repo root
    let relevant := extract_relevant_files repoData
    let filesContent := buildFilesMap fetch relevant
    some (summarize_repo genContent filesContent)

/-! ### C9: round-trip facts for simple summaries -/

/-- Printable ASCII other than `"` and `\`: such characters are serialized
verbatim by `json.dumps` and parsed verbatim by `json.loads`. -/
def simpleChar (c : Char) : Bool :=
  decide (32 ≤ c.toNat) && decide (c.toNat ≤ 126) && !(c == '"') && !(c == '\\')

def simpleStr (s : String) : Bool := s.data.all simpleChar

/-! ## Theorems -/
theorem dropLit_append (l s : List Char) : dropLit l (l ++ s) = some s := by
  induction l with
  | nil => rfl
  | cons c cs ih => simp [dropLit, ih]

theorem dropLit_cons_of_ne (a b : Char) (as bs : List Char) (h : a ≠ b) :
    dropLit (a :: as) (b :: bs) = none := by
  simp [dropLit, h]

theorem dropLit_eq_some (l : List Char) :
    ∀ s r, dropLit l s = some r → s = l ++ r := by
  induction l with
  | nil => intro s r h; simpa [dropLit] using h
  | cons c cs ih =>
    intro s r h
    match s with
    | [] => simp [dropLit] at h
    | d :: ds =>
      by_cases hc : c = d
      · subst hc
        simp only [dropLit, if_pos rfl] at h
        simpa using ih ds r h
      · simp [dropLit, hc] at h

theorem pyEndsWith_iff (s suffix : String) :
    pyEndsWith s suffix = true ↔ ∃ p : List Char, s.data = p ++ suffix.data := by
  unfold pyEndsWith
  constructor
  · intro h
    rcases Option.isSome_iff_exists.mp h with ⟨r, hr⟩
    have := dropLit_eq_some _ _ _ hr
    refine ⟨r.reverse, ?_⟩
    have : s.data.reverse.reverse = (suffix.data.reverse ++ r).reverse := by rw [this]
    simpa [List.reverse_append] using this
  · rintro ⟨p, hp⟩
    have : s.data.reverse = suffix.data.reverse ++ p.reverse := by
      simp [hp, List.reverse_append]
    rw [this, dropLit_append]
    rfl

/-! ### Lemmas about the pattern matcher -/

theorem takeWhile_app (p : Char → Bool) (l r : List Char) (h : ∀ c ∈ l, p c = true) :
    (l ++ r).takeWhile p = l ++ r.takeWhile p := by
  induction l with
  | nil => simp
  | cons c cs ih =>
    have hc : p c = true := h c (List.mem_cons_self c cs)
    simp only [List.cons_append, List.takeWhile_cons, hc, if_true]
    rw [ih fun x hx => h x (List.mem_cons_of_mem _ hx)]

theorem dropWhile_app (p : Char → Bool) (l r : List Char) (h : ∀ c ∈ l, p c = true) :
    (l ++ r).dropWhile p = r.dropWhile p := by
  induction l with
  | nil => simp
  | cons c cs ih =>
    have hc : p c = true := h c (List.mem_cons_self c cs)
    simp only [List.cons_append, List.dropWhile_cons, hc, if_true]
    exact ih fun x hx => h x (List.mem_cons_of_mem _ hx)

theorem matchTail_eq (owner repo : String) (z : List Char)
    (ho : owner ≠ "") (ho2 : ∀ c ∈ owner.data, c ≠ '/')
    (hr : repo ≠ "") (hr2 : ∀ c ∈ repo.data, c ≠ '/' ∧ c ≠ '.')
    (hz : z = [] ∨ ∃ c zs, z = c :: zs ∧ (c = '/' ∨ c = '.')) :
    matchTail (owner.data ++ '/' :: (repo.data ++ z)) = some (owner, repo) := by
  have ho1 : ∀ c ∈ owner.data, notSlash c = true := by
    intro c hc; simpa [notSlash] using ho2 c hc
  have hr1 : ∀ c ∈ repo.data, notSlashDot c = true := by
    intro c hc
    rcases hr2 c hc with ⟨h1, h2⟩
    simp [notSlashDot, h1, h2]
  have htake : (owner.data ++ '/' :: (repo.data ++ z)).takeWhile notSlash = owner.data := by
    rw [takeWhile_app _ _ _ ho1]
    simp [List.takeWhile_cons, notSlash]
  have hdrop : (owner.data ++ '/' :: (repo.data ++ z)).dropWhile notSlash
      = '/' :: (repo.data ++ z) := by
    rw [dropWhile_app _ _ _ ho1]
    simp [List.dropWhile_cons, notSlash]
  have htake2 : (repo.data ++ z).takeWhile notSlashDot = repo.data := by
    rcases hz with rfl | ⟨c, zs, rfl, hc⟩
    · rw [List.append_nil]
      exact List.takeWhile_eq_self_iff.mpr hr1
    · rw [takeWhile_app _ _ _ hr1]
      have hcf : notSlashDot c = false := by
        rcases hc with rfl | rfl <;> simp [notSlashDot]
      simp [List.takeWhile_cons, hcf]
  have hod : owner.data ≠ [] := fun h => ho (String.ext h)
  have hrd : repo.data ≠ [] := fun h => hr (String.ext h)
  unfold matchTail
  rw [hdrop]
  simp only [htake, htake2, List.isEmpty_iff, hod, hrd, if_neg, ite_false]

theorem reSearch_here (lit s r : List Char) (m : String × String)
    (h1 : dropLit lit s = some r) (h2 : matchTail r = some m) :
    reSearch lit s = some m := by
  cases s with
  | nil => simp [reSearch, h1, h2]
  | cons c rest => simp [reSearch, h1, h2]

theorem reSearch_skip (lit : List Char) (c : Char) (rest : List Char)
    (h1 : dropLit lit (c :: rest) = none) :
    reSearch lit (c :: rest) = reSearch lit rest := by
  simp [reSearch, h1]

theorem reSearch_pre (g : Char) (cs pre s : List Char) (hpre : ∀ c ∈ pre, c ≠ g) :
    reSearch (g :: cs) (pre ++ s) = reSearch (g :: cs) s := by
  induction pre with
  | nil => simp
  | cons c rest ih =>
    have hc : g ≠ c := Ne.symm (hpre c (List.mem_cons_self c rest))
    rw [List.cons_append, reSearch_skip _ _ _ (dropLit_cons_of_ne g c _ _ hc)]
    exact ih fun x hx => hpre x (List.mem_cons_of_mem _ hx)

/-! ### C1 -/

/-- C1 (counterexample): the claim says that for every valid GitHub
repository URL, `parse_github_url` returns `(owner, repo)` with only a
trailing `.git` stripped from the repo name.  GitHub repository names may
contain dots (e.g. `next.js`), and for such a URL the second capture group
`([^/.]+)` stops at the first dot: the code returns `("vercel", "next")`,
not the claimed `("vercel", "next.js")`. -/
theorem parse_github_url_dotted_repo_counterexample :
    parse_github_url "https://github.com/vercel/next.js" = some ("vercel", "next") ∧
    parse_github_url "https://github.com/vercel/next.js" ≠ some ("vercel", "next.js") := by
  exact ⟨by decide, by decide⟩

/-- C1 (amended): for HTTPS URLs `https://github.com/owner/repo[.git][/...]`
and SSH URLs `git@github.com:owner/repo[.git][/...]` in which `owner` is
nonempty and contains no `/` and `repo` is nonempty and contains no `/` and
no `.`, `parse_github_url` returns `(owner, repo)`; in particular the two
examples of the claim hold.  (Repo names containing a dot are truncated at
the first dot rather than merely losing a trailing `.git`.) -/
theorem parse_github_url_valid_amended (owner repo tail : String)
    (ho : owner ≠ "") (ho2 : ∀ c ∈ owner.data, c ≠ '/')
    (hr : repo ≠ "") (hr2 : ∀ c ∈ repo.data, c ≠ '/' ∧ c ≠ '.')
    (ht : tail = "" ∨ tail = ".git" ∨ ∃ t, tail = "/" ++ t) :
    parse_github_url ("https://github.com/" ++ owner ++ "/" ++ repo ++ tail)
        = some (owner, repo) ∧
    parse_github_url ("git@github.com:" ++ owner ++ "/" ++ repo ++ tail)
        = some (owner, repo) ∧
    parse_github_url "https://github.com/foo/bar.git" = some ("foo", "bar") ∧
    parse_github_url "git@github.com:foo/bar.git" = some ("foo", "bar") := by
  have hz : tail.data = [] ∨ ∃ c zs, tail.data = c :: zs ∧ (c = '/' ∨ c = '.') := by
    rcases ht with rfl | rfl | ⟨t, rfl⟩
    · exact Or.inl rfl
    · exact Or.inr ⟨'.', ['g', 'i', 't'], rfl, Or.inr rfl⟩
    · refine Or.inr ⟨'/', t.data, ?_, Or.inl rfl⟩
      show ("/" ++ t).data = '/' :: t.data
      simp [String.data_append]
  have hmt := matchTail_eq owner repo tail.data ho ho2 hr hr2 hz
  refine ⟨?_, ?_, by decide, by decide⟩
  · -- HTTPS form
    have hud : ("https://github.com/" ++ owner ++ "/" ++ repo ++ tail).data
        = "https://".data ++ ("github.com/".data
            ++ (owner.data ++ '/' :: (repo.data ++ tail.data))) := by
      have h2 : ("https://github.com/" : String).data
          = "https://".data ++ "github.com/".data := rfl
      simp [String.data_append, h2]
    have hstart : pyStartsWith ("https://github.com/" ++ owner ++ "/" ++ repo ++ tail)
        "git@" = false := by
      unfold pyStartsWith
      rw [hud]
      rfl
    unfold parse_github_url
    rw [hstart]
    simp only [Bool.false_eq_true, if_false]
    rw [hud]
    have h3 : ("github.com/" : String).data
        = 'g' :: ['i', 't', 'h', 'u', 'b', '.', 'c', 'o', 'm', '/'] := rfl
    rw [h3, reSearch_pre 'g' _ _ _ (by decide), ← h3]
    exact reSearch_here _ _ _ _ (dropLit_append _ _) hmt
  · -- SSH form
    have hud : ("git@github.com:" ++ owner ++ "/" ++ repo ++ tail).data
        = "git@github.com:".data ++ (owner.data ++ '/' :: (repo.data ++ tail.data)) := by
      simp [String.data_append]
    have hsplit : ("git@github.com:" : String).data
        = "git@".data ++ "github.com:".data := rfl
    have hstart : pyStartsWith ("git@github.com:" ++ owner ++ "/" ++ repo ++ tail)
        "git@" = true := by
      unfold pyStartsWith
      rw [hud, hsplit, List.append_assoc, dropLit_append]
      rfl
    unfold parse_github_url
    rw [hstart]
    simp only [if_true]
    rw [hud]
    exact reSearch_here _ _ _ _ (dropLit_append _ _) hmt

/-- Witness for `parse_github_url_valid_amended` at `owner := "foo"`,
`repo := "bar"`, `tail := ".git"`. -/
theorem parse_github_url_valid_amended_witness :
    parse_github_url ("https://github.com/" ++ "foo" ++ "/" ++ "bar" ++ ".git")
        = some ("foo", "bar") :=
  (parse_github_url_valid_amended "foo" "bar" ".git" (by decide)
    (by decide) (by decide) (by decide) (Or.inr (Or.inl rfl))).1

theorem dfsFiles_append (a b : List FsNode) :
    dfsFiles (a ++ b) = dfsFiles a ++ dfsFiles b := by
  induction a using dfsFiles.induct with
  | case1 => simp [dfsFiles]
  | case2 n p u rest ih => simp [List.cons_append, dfsFiles, ih]
  | case3 n p rest ih => simp [List.cons_append, dfsFiles, ih]
  | case4 n p items rest ih1 ih2 => simp [List.cons_append, dfsFiles, ih2]

theorem scanList_eq_dfsFiles : ∀ l, scanList l = dfsFiles l := by
  intro l
  induction l using scanList.induct with
  | case1 => simp [scanList, dfsFiles]
  | case2 n p u rest ih => simp [scanList, dfsFiles, ih]
  | case3 n p rest ih => simp [scanList, dfsFiles, ih]
  | case4 n p items rest ih1 ih2 =>
    simp only [scanList, dfsFiles, ih2]
    cases h : items.isEmpty with
    | true =>
      rw [List.isEmpty_iff] at h
      subst h
      simp [dfsFiles]
    | false => simp [h, ih1]

theorem dfsFiles_all_isFile : ∀ l, (dfsFiles l).all isFile = true := by
  intro l
  induction l using dfsFiles.induct with
  | case1 => simp [dfsFiles]
  | case2 n p u rest ih => simp [dfsFiles, isFile, ih]
  | case3 n p rest ih => simp [dfsFiles, ih]
  | case4 n p items rest ih1 ih2 => simp [dfsFiles, List.all_append, ih1, ih2]

theorem extract_relevant_files_eq_filter (l : List FsNode) :
    extract_relevant_files l
      = l.filter (fun f => relevantSuffixes.any (fun ext => pyEndsWith (fname f) ext)) := by
  induction l with
  | nil => rfl
  | cons f rest ih =>
    by_cases h : relevantSuffixes.any (fun ext => pyEndsWith (fname f) ext) = true
    · simp [extract_relevant_files, List.filter_cons, h, ih]
    · simp only [Bool.not_eq_true] at h
      simp [extract_relevant_files, List.filter_cons, h, ih]

/-! ### C7 -/

/-- C7: a failed directory listing (`none` children) contributes nothing
and does not disturb the traversal of its siblings (first conjunct, at any
level of the tree, and fourth conjunct at the root); the flattened result
contains only file entries (second conjunct) and equals the depth-first
file traversal (third conjunct). -/
theorem scan_repo_resilient_dfs :
    (∀ (l1 l2 : List FsNode) (n p : String),
        scanList (l1 ++ FsNode.dir n p none :: l2) = scanList (l1 ++ l2)) ∧
    (∀ root, (scan_repo root).all isFile = true) ∧
    (∀ root, scan_repo root = dfsFilesRoot root) ∧
    (∀ (l1 l2 : List FsNode) (n p : String),
        scan_repo (some (l1 ++ FsNode.dir n p none :: l2))
          = scan_repo (some (l1 ++ l2))) := by
  have hroot : ∀ root, scan_repo root = dfsFilesRoot root := by
    intro root
    cases root with
    | none => rfl
    | some items =>
      show (if items.isEmpty then [] else scanList items) = dfsFiles items
      cases h : items.isEmpty with
      | true =>
        rw [List.isEmpty_iff] at h
        subst h
        simp [dfsFiles]
      | false => simp [h, scanList_eq_dfsFiles]
  have hdir : ∀ (l2 : List FsNode) (n p : String),
      dfsFiles (FsNode.dir n p none :: l2) = dfsFiles l2 := by
    intro l2 n p
    simp [dfsFiles]
  have hskip : ∀ (l1 l2 : List FsNode) (n p : String),
      scanList (l1 ++ FsNode.dir n p none :: l2) = scanList (l1 ++ l2) := by
    intro l1 l2 n p
    rw [scanList_eq_dfsFiles, scanList_eq_dfsFiles, dfsFiles_append, dfsFiles_append]
    rw [hdir]
  refine ⟨hskip, ?_, hroot, ?_⟩
  · intro root
    rw [hroot]
    cases root with
    | none => rfl
    | some items => exact dfsFiles_all_isFile items
  · intro l1 l2 n p
    rw [hroot, hroot]
    show dfsFiles (l1 ++ FsNode.dir n p none :: l2) = dfsFiles (l1 ++ l2)
    rw [dfsFiles_append, dfsFiles_append, hdir]

/-! ### C3 -/

/-- C3 (counterexample): the claim asserts that a file named
`not_a_real_Dockerfile_just_kidding` is kept by the filter.  That name does
not end with `Dockerfile` (or any other allow-list literal), so the
suffix check drops it. -/
theorem extract_relevant_files_counterexample :
    extract_relevant_files
        [FsNode.file "not_a_real_Dockerfile_just_kidding" "p" "u"] = [] ∧
    extract_relevant_files
        [FsNode.file "not_a_real_Dockerfile_just_kidding" "p" "u"]
      ≠ [FsNode.file "not_a_real_Dockerfile_just_kidding" "p" "u"] := by
  constructor
  · rfl
  · intro h
    rw [show extract_relevant_files
        [FsNode.file "not_a_real_Dockerfile_just_kidding" "p" "u"]
        = [] from rfl] at h
    exact absurd h (by simp)

/-- C3 (amended): `extract_relevant_files` keeps exactly the entries whose
name has one of the seven literals as a string suffix, preserving input
order; `Dockerfile`, `not_a_real_Dockerfile`, `requirements.txt` and
`app.py` are kept while `image.png` and
`not_a_real_Dockerfile_just_kidding` (which does not end with
`Dockerfile`) are dropped. -/
theorem extract_relevant_files_amended :
    (∀ l, extract_relevant_files l
        = l.filter (fun f => relevantSuffixes.any (fun ext => pyEndsWith (fname f) ext))) ∧
    (∀ s suffix : String,
        pyEndsWith s suffix = true ↔ ∃ p : List Char, s.data = p ++ suffix.data) ∧
    (∀ l, (extract_relevant_files l).Sublist l) ∧
    extract_relevant_files
        [FsNode.file "Dockerfile" "" "", FsNode.file "not_a_real_Dockerfile" "" "",
         FsNode.file "requirements.txt" "" "", FsNode.file "app.py" "" "",
         FsNode.file "image.png" "" "",
         FsNode.file "not_a_real_Dockerfile_just_kidding" "" ""]
      = [FsNode.file "Dockerfile" "" "", FsNode.file "not_a_real_Dockerfile" "" "",
         FsNode.file "requirements.txt" "" "", FsNode.file "app.py" "" ""] := by
  refine ⟨extract_relevant_files_eq_filter, pyEndsWith_iff, ?_, rfl⟩
  intro l
  rw [extract_relevant_files_eq_filter]
  exact List.filter_sublist l

example : jsonLoads "\x7b\"dependencies\": \x7b\"react\": \"^18.2.0\"\x7d\x7d"
    = some (JValue.jobj [("dependencies",
        JValue.jobj [("react", JValue.jstr "^18.2.0")])]) := by rfl
example : jsonLoads "\x7bnot json" = none := by rfl
example : jsonLoads "[01]" = none := by rfl
example : jsonLoads "01" = none := by rfl
example : jsonLoads "NaN" = some (JValue.jnum "NaN") := by rfl
example : jsonLoads "[Infinity, -Infinity]"
    = some (JValue.jarr [JValue.jnum "Infinity", JValue.jnum "-Infinity"]) := by rfl
example : pyStrip ("flask" ++ String.singleton (Char.ofNat 0xA0)) = "flask" := by rfl
example : reqLineSpec ("flask" ++ String.singleton (Char.ofNat 0xA0) ++ "==2.0.1")
    = some ⟨"flask", "2.0.1", backendDescr⟩ := by rfl
example : extract_dependencies
      [("package.json", "\x7b\"dependencies\": \x7b\"x\": \"1.0\"\x7d, \"z\": NaN\x7d")]
    = Except.ok [⟨"x", "1.0", frontendDescr⟩] := by rfl
example : extract_dependencies
      [("package.json", "\x7b\"dependencies\": \x7b\"x\": \"1.0\"\x7d, \"z\": 01\x7d")]
    = Except.ok [] := by rfl
example : jsonLoads "[1, \"two\", true, null, -3.5e2]"
    = some (JValue.jarr [JValue.jnum "1", JValue.jstr "two", JValue.jbool true,
        JValue.jnull, JValue.jnum "-3.5e2"]) := by rfl
example : jsonLoads " \"a\\u00e9\\n\" "
    = some (JValue.jstr ("a" ++ String.singleton (Char.ofNat 233) ++ "\n")) := by rfl

example : pySplit "flask==2.0.1" '=' ['='] = ["flask", "2.0.1"] := by rfl
example : pySplit "a===b" '=' ['='] = ["a", "=b"] := by rfl
example : pySplit "a==b==c" '=' ['='] = ["a", "b", "c"] := by rfl
example : pySplit "" '\n' [] = [""] := by rfl
example : pySplit "x\n\ny" '\n' [] = ["x", "", "y"] := by rfl

example :
    extract_dependencies
        [("package.json", "\x7b\"dependencies\": \x7b\"react\": \"^18.2.0\"\x7d\x7d")]
      = Except.ok [⟨"react", "18.2.0", frontendDescr⟩] := by rfl

example :
    extract_dependencies [("requirements.txt", "flask==2.0.1\nnumpy\n# comment")]
      = Except.ok [⟨"flask", "2.0.1", backendDescr⟩] := by rfl

example : extract_dependencies [("package.json", "not json at all")] = Except.ok [] := by rfl

theorem reqLoop_eq (acc : List Dep) (lines : List String) :
    reqLoop acc lines = acc ++ lines.filterMap reqLineSpec := by
  induction lines generalizing acc with
  | nil => simp [reqLoop]
  | cons line rest ih =>
    by_cases h1 : pyStrip line = ""
    · simp [reqLoop, reqLineSpec, h1, ih]
    · by_cases h2 : pyStartsWith line "#" = true
      · simp [reqLoop, reqLineSpec, h1, h2, ih]
      · cases hs : pySplit line '=' ['='] with
        | nil => simp [reqLoop, reqLineSpec, h1, h2, hs, ih]
        | cons a t =>
          cases t with
          | nil => simp [reqLoop, reqLineSpec, h1, h2, hs, ih]
          | cons b t2 =>
            cases t2 with
            | nil => simp [reqLoop, reqLineSpec, h1, h2, hs, ih]
            | cons c3 t3 => simp [reqLoop, reqLineSpec, h1, h2, hs, ih]

theorem pkgLoop_ok (items : List (String × JValue)) :
    ∀ acc res, pkgLoop acc items = Except.ok res →
      res = acc ++ items.filterMap pkgEntrySpec := by
  induction items with
  | nil =>
    intro acc res h
    simp only [pkgLoop] at h
    cases h
    simp
  | cons p rest ih =>
    intro acc res h
    obtain ⟨nm, v⟩ := p
    cases v with
    | jstr s =>
      simp only [pkgLoop] at h
      rw [ih _ _ h]
      simp [pkgEntrySpec]
    | jnum lx => simp [pkgLoop] at h
    | jbool b => simp [pkgLoop] at h
    | jnull => simp [pkgLoop] at h
    | jarr items2 => simp [pkgLoop] at h
    | jobj fields2 => simp [pkgLoop] at h

theorem pkgLoop_map (depFields : List (String × String)) :
    ∀ acc, pkgLoop acc (depFields.map (fun q => (q.1, JValue.jstr q.2)))
      = Except.ok (acc ++ depFields.map
          (fun q => (⟨q.1, stripMarkers q.2, frontendDescr⟩ : Dep))) := by
  induction depFields with
  | nil => intro acc; simp [pkgLoop]
  | cons q rest ih => intro acc; simp [pkgLoop, ih]

theorem any_eq_isSome_jAssoc (fields : List (String × JValue)) (k : String) :
    fields.any (fun p => p.1 == k) = (jAssoc fields k).isSome := by
  induction fields with
  | nil => rfl
  | cons p rest ih =>
    obtain ⟨k0, v0⟩ := p
    by_cases h : k0 = k
    · simp [jAssoc, h]
    · simp [jAssoc, h, ih]

theorem pkgStep_ok (m : List (String × String)) (p : List Dep)
    (h : pkgStep m = Except.ok p) : p = pkgDerivedSpec m := by
  unfold pkgStep at h
  unfold pkgDerivedSpec
  cases hp : lookupMap m "package.json" with
  | none => simp only [hp] at h; cases h; rfl
  | some content =>
    simp only [hp] at h
    cases hj : jsonLoads content with
    | none => simp only [hj] at h; cases h; simp [hj]
    | some pj =>
      simp only [hj] at h
      cases pj with
      | jstr s =>
        simp only [pyContainsKey] at h
        cases hb : strContainsAux ("dependencies".data) s.data with
        | false => simp only [hb] at h; cases h; simp [hj]
        | true => simp [hb, pySubscript] at h
      | jnum lx => simp [pyContainsKey] at h
      | jbool b => simp [pyContainsKey] at h
      | jnull => simp [pyContainsKey] at h
      | jarr items =>
        simp only [pyContainsKey] at h
        cases hb : items.any fun x =>
            match x with
            | JValue.jstr s => s == "dependencies"
            | _ => false with
        | false => simp only [hb] at h; cases h; simp [hj]
        | true => simp [hb, pySubscript] at h
      | jobj fields =>
        simp only [pyContainsKey, any_eq_isSome_jAssoc] at h
        cases ha : jAssoc fields "dependencies" with
        | none => simp only [ha, Option.isSome_none] at h; cases h; simp [hj, ha]
        | some dv =>
          simp only [ha, Option.isSome_some, pySubscript] at h
          cases dv with
          | jobj depFields =>
            simp only [pyItems] at h
            rw [pkgLoop_ok depFields [] p h]
            simp [hj, ha]
          | jstr s => simp [pyItems] at h
          | jnum lx => simp [pyItems] at h
          | jbool b => simp [pyItems] at h
          | jnull => simp [pyItems] at h
          | jarr its => simp [pyItems] at h

theorem extract_of_pkgStep (m : List (String × String)) (p : List Dep)
    (h : pkgStep m = Except.ok p) :
    extract_dependencies m = Except.ok (p ++ reqDerivedSpec m) := by
  unfold extract_dependencies reqDerivedSpec
  rw [h]
  cases hr : lookupMap m "requirements.txt" with
  | none => simp
  | some content => simp [reqLoop_eq]

/-! ### C4 -/

/-- C4 (counterexample): the claim says the emitted version string is the
declared one with a *leading* `^`/`~` stripped.  The code calls
`version.replace('^', '').replace('~', '')`, removing every occurrence:
for the version range `"~1.0 || ~2.0"` the claimed result keeps the inner
`~` (`"1.0 || ~2.0"`) but the code produces `"1.0 || 2.0"`. -/
theorem extract_dependencies_tilde_counterexample :
    extract_dependencies [("package.json",
        "\x7b\"dependencies\": \x7b\"x\": \"~1.0 || ~2.0\"\x7d\x7d")]
      = Except.ok [⟨"x", "1.0 || 2.0", frontendDescr⟩] ∧
    extract_dependencies [("package.json",
        "\x7b\"dependencies\": \x7b\"x\": \"~1.0 || ~2.0\"\x7d\x7d")]
      ≠ Except.ok [⟨"x", "1.0 || ~2.0", frontendDescr⟩] := by
  have h1 : extract_dependencies [("package.json",
      "\x7b\"dependencies\": \x7b\"x\": \"~1.0 || ~2.0\"\x7d\x7d")]
      = Except.ok [⟨"x", "1.0 || 2.0", frontendDescr⟩] := by rfl
  refine ⟨h1, ?_⟩
  rw [h1]
  intro h
  have := Except.ok.inj h
  have hv : ("1.0 || 2.0" : String) = "1.0 || ~2.0" := congrArg Dep.version (List.head_eq_of_cons_eq this)
  exact absurd hv (by decide)

/-- C4 (amended): when `package.json` is present and parses as a JSON
object whose `dependencies` entry is an object of string versions,
`extract_dependencies` emits one dependency per entry in declaration
order, with name, the fixed frontend/Node description, and the version
with **every** `^` and `~` character removed (for versions such as
`"^18.2.0"`, whose only marker is leading, this equals stripping the
leading marker); when the `package.json` text is malformed JSON this
source contributes zero dependencies and no error is raised; the `react`
example of the claim holds. -/
theorem extract_dependencies_package_json_amended :
    (∀ (m : List (String × String)) (content : String)
        (fields : List (String × JValue)) (depFields : List (String × String)),
        lookupMap m "package.json" = some content →
        jsonLoads content = some (JValue.jobj fields) →
        jAssoc fields "dependencies"
          = some (JValue.jobj (depFields.map (fun q => (q.1, JValue.jstr q.2)))) →
        extract_dependencies m
          = Except.ok ((depFields.map
              (fun q => (⟨q.1, stripMarkers q.2, frontendDescr⟩ : Dep)))
              ++ reqDerivedSpec m)) ∧
    (∀ (m : List (String × String)) (content : String),
        lookupMap m "package.json" = some content →
        jsonLoads content = none →
        extract_dependencies m = Except.ok (reqDerivedSpec m)) ∧
    extract_dependencies
        [("package.json", "\x7b\"dependencies\": \x7b\"react\": \"^18.2.0\"\x7d\x7d")]
      = Except.ok [⟨"react", "18.2.0", frontendDescr⟩] := by
  refine ⟨?_, ?_, by rfl⟩
  · intro m content fields depFields hp hj ha
    have hstep : pkgStep m = Except.ok (depFields.map
        (fun q => (⟨q.1, stripMarkers q.2, frontendDescr⟩ : Dep))) := by
      unfold pkgStep
      simp only [hp, hj, pyContainsKey, any_eq_isSome_jAssoc, ha, Option.isSome_some,
        pySubscript, pyItems]
      exact pkgLoop_map depFields []
    rw [extract_of_pkgStep m _ hstep]
  · intro m content hp hj
    have hstep : pkgStep m = Except.ok [] := by
      unfold pkgStep
      simp [hp, hj]
    have := extract_of_pkgStep m [] hstep
    simpa using this

/-- Witness for `extract_dependencies_package_json_amended` at the `react`
manifest. -/
theorem extract_dependencies_package_json_amended_witness :
    extract_dependencies
        [("package.json", "\x7b\"dependencies\": \x7b\"react\": \"^18.2.0\"\x7d\x7d")]
      = Except.ok ([(⟨"react", stripMarkers "^18.2.0", frontendDescr⟩ : Dep)]
          ++ reqDerivedSpec
              [("package.json", "\x7b\"dependencies\": \x7b\"react\": \"^18.2.0\"\x7d\x7d")]) :=
  extract_dependencies_package_json_amended.1
    [("package.json", "\x7b\"dependencies\": \x7b\"react\": \"^18.2.0\"\x7d\x7d")]
    "\x7b\"dependencies\": \x7b\"react\": \"^18.2.0\"\x7d\x7d"
    [("dependencies", JValue.jobj [("react", JValue.jstr "^18.2.0")])]
    [("react", "^18.2.0")] rfl (by rfl) rfl

/-! ### C5 -/

/-- C5: the `requirements.txt` section splits the content into lines,
skips blank lines and `#`-prefixed lines, emits `{name, version, fixed
Python-backend description}` exactly for lines whose `==`-split gives two
parts, and drops every other line; the emitted entries are appended after
whatever the `package.json` section produced.  On the claim's example file
exactly one dependency (`flask`, `2.0.1`) is produced, `numpy` and
`# comment` being dropped. -/
theorem extract_dependencies_requirements :
    (∀ (m : List (String × String)) (content : String) (l : List Dep),
        lookupMap m "requirements.txt" = some content →
        extract_dependencies m = Except.ok l →
        ∃ q, l = q ++ (pySplit content '\n' []).filterMap reqLineSpec) ∧
    reqLineSpec "flask==2.0.1" = some ⟨"flask", "2.0.1", backendDescr⟩ ∧
    reqLineSpec "numpy" = none ∧
    reqLineSpec "# comment" = none ∧
    extract_dependencies [("requirements.txt", "flask==2.0.1\nnumpy\n# comment")]
      = Except.ok [⟨"flask", "2.0.1", backendDescr⟩] := by
  refine ⟨?_, by rfl, by rfl, by rfl, by rfl⟩
  intro m content l hr hx
  unfold extract_dependencies at hx
  cases hs : pkgStep m with
  | error e => rw [hs] at hx; cases hx
  | ok deps1 =>
    rw [hs, hr] at hx
    cases hx
    exact ⟨deps1, reqLoop_eq deps1 _⟩

/-- Witness for `extract_dependencies_requirements` on the claim's
example file. -/
theorem extract_dependencies_requirements_witness :
    ∃ q, [(⟨"flask", "2.0.1", backendDescr⟩ : Dep)]
      = q ++ (pySplit "flask==2.0.1\nnumpy\n# comment" '\n' []).filterMap reqLineSpec :=
  extract_dependencies_requirements.1
    [("requirements.txt", "flask==2.0.1\nnumpy\n# comment")]
    "flask==2.0.1\nnumpy\n# comment"
    [⟨"flask", "2.0.1", backendDescr⟩] rfl (by rfl)

/-! ### C6 -/

/-- C6: whenever `extract_dependencies` returns a list, that list is the
`package.json`-derived entries (in manifest declaration order) followed by
the `requirements.txt`-derived entries (in file line order). -/
theorem extract_dependencies_concat_order (m : List (String × String)) (l : List Dep)
    (h : extract_dependencies m = Except.ok l) :
    l = pkgDerivedSpec m ++ reqDerivedSpec m := by
  cases hs : pkgStep m with
  | error e =>
    unfold extract_dependencies at h
    rw [hs] at h
    cases h
  | ok p =>
    have := extract_of_pkgStep m p hs
    rw [this] at h
    cases h
    rw [pkgStep_ok m p hs]

/-- Witness for `extract_dependencies_concat_order` on a map carrying both
manifests. -/
theorem extract_dependencies_concat_order_witness :
    [(⟨"react", "18.2.0", frontendDescr⟩ : Dep), ⟨"flask", "2.0.1", backendDescr⟩]
      = pkgDerivedSpec
          [("package.json", "\x7b\"dependencies\": \x7b\"react\": \"^18.2.0\"\x7d\x7d"),
           ("requirements.txt", "flask==2.0.1")]
        ++ reqDerivedSpec
          [("package.json", "\x7b\"dependencies\": \x7b\"react\": \"^18.2.0\"\x7d\x7d"),
           ("requirements.txt", "flask==2.0.1")] :=
  extract_dependencies_concat_order
    [("package.json", "\x7b\"dependencies\": \x7b\"react\": \"^18.2.0\"\x7d\x7d"),
     ("requirements.txt", "flask==2.0.1")]
    [⟨"react", "18.2.0", frontendDescr⟩, ⟨"flask", "2.0.1", backendDescr⟩] (by rfl)

/-! ### C2 -/

/-- C2: a URL matched by neither pattern makes `parse_github_url` raise
`ValueError("Invalid GitHub URL")` (`none`), and this is the only fatal
error in the pipeline: `analyze_github_repo` yields `None` exactly when
the parser fails, whatever the listing, fetch and LLM oracles do (every
other failure degrades inside its component).  Example malformed URLs:
missing repo segment, missing owner/repo, wrong host. -/
theorem parse_github_url_invalid_only_fatal :
    (∀ (root : Option (List FsNode)) (fetch : String → Option String)
        (genContent : String → Except String LlmResponse) (url : String),
        analyze_github_repo root fetch genContent url = none
          ↔ parse_github_url url = none) ∧
    parse_github_url "https://github.com" = none ∧
    parse_github_url "https://github.com/owneronly" = none ∧
    parse_github_url "https://example.com/foo/bar" = none ∧
    parse_github_url "git@github.com:owneronly" = none := by
  refine ⟨?_, by decide, by decide, by decide, by decide⟩
  intro root fetch genContent url
  unfold analyze_github_repo
  cases hp : parse_github_url url with
  | none => simp
  | some pr => simp

/-! ### C8 -/

/-- C8: whenever the LLM call raises (an `Except.error` from the
`genContent` oracle), `summarize_repo` catches it and returns the error
string `"Error generating summary: ..."` without writing the artifact;
being a total function of its oracles, it never propagates an exception
to its caller. -/
theorem summarize_repo_catches_llm_error
    (genContent : String → Except String LlmResponse)
    (filesData : List (String × String)) (deps : List Dep) (e : String)
    (hdeps : extract_dependencies filesData = Except.ok deps)
    (hllm : genContent (buildPrompt filesData) = Except.error e) :
    summarize_repo genContent filesData
      = { ret := "Error generating summary: " ++ e, written := none } := by
  simp only [summarize_repo, hdeps, hllm]

/-- Witness for `summarize_repo_catches_llm_error` with an oracle that
always raises. -/
theorem summarize_repo_catches_llm_error_witness :
    summarize_repo (fun _ => Except.error "429 quota exceeded") []
      = { ret := "Error generating summary: " ++ "429 quota exceeded", written := none } :=
  summarize_repo_catches_llm_error (fun _ => Except.error "429 quota exceeded")
    [] [] "429 quota exceeded" (by rfl) (by rfl)

/-! ### C10 -/

/-- C10: if the LLM call succeeds but the response object is falsy,
`summarize_repo` returns `""` and writes nothing; and in general the
artifact is written only when the response is truthy. -/
theorem summarize_repo_falsy_response :
    (∀ (genContent : String → Except String LlmResponse)
        (filesData : List (String × String)) (deps : List Dep) (t : String),
        extract_dependencies filesData = Except.ok deps →
        genContent (buildPrompt filesData) = Except.ok ⟨false, t⟩ →
        summarize_repo genContent filesData = { ret := "", written := none }) ∧
    (∀ (genContent : String → Except String LlmResponse)
        (filesData : List (String × String)),
        (summarize_repo genContent filesData).written ≠ none →
        ∃ r, genContent (buildPrompt filesData) = Except.ok r ∧ r.truthy = true) := by
  constructor
  · intro g f deps t hd hl
    simp [summarize_repo, hd, hl]
  · intro g f h
    unfold summarize_repo at h
    cases hd : extract_dependencies f with
    | error e => simp only [hd] at h; simp at h
    | ok deps =>
      simp only [hd] at h
      cases hl : g (buildPrompt f) with
      | error e => simp only [hl] at h; simp at h
      | ok r =>
        simp only [hl] at h
        cases ht : r.truthy with
        | true => exact ⟨r, rfl, ht⟩
        | false => simp only [ht] at h; simp at h

/-- Witness for `summarize_repo_falsy_response` with an oracle returning a
falsy response. -/
theorem summarize_repo_falsy_response_witness :
    summarize_repo (fun _ => Except.ok ⟨false, "ignored"⟩) []
      = { ret := "", written := none } :=
  summarize_repo_falsy_response.1 (fun _ => Except.ok ⟨false, "ignored"⟩)
    [] [] "ignored" (by rfl) (by rfl)

theorem simpleChar_facts (c : Char) (h : simpleChar c = true) :
    32 ≤ c.toNat ∧ c.toNat ≤ 126 ∧ c ≠ '"' ∧ c ≠ '\\' := by
  unfold simpleChar at h
  simp only [Bool.and_eq_true, decide_eq_true_eq, Bool.not_eq_true',
    beq_eq_false_iff_ne] at h
  exact ⟨h.1.1.1, h.1.1.2, h.1.2, h.2⟩

theorem escChar_simple (c : Char) (h : simpleChar c = true) :
    escChar c = String.singleton c := by
  obtain ⟨h1, h2, h3, h4⟩ := simpleChar_facts c h
  have hn : c ≠ '\n' := by intro e; subst e; exact absurd h1 (by decide)
  have hr : c ≠ '\r' := by intro e; subst e; exact absurd h1 (by decide)
  have ht : c ≠ '\t' := by intro e; subst e; exact absurd h1 (by decide)
  have h8 : c.toNat ≠ 8 := by omega
  have h12 : c.toNat ≠ 12 := by omega
  have hrange : ¬(c.toNat < 32 ∨ 127 < c.toNat) := by omega
  unfold escChar
  rw [if_neg h3, if_neg h4, if_neg hn, if_neg hr, if_neg ht, if_neg h8, if_neg h12,
    if_neg hrange]

theorem escStr_simple_list (l : List Char) (h : l.all simpleChar = true) :
    List.foldr (fun c acc => escChar c ++ acc) "" l = String.mk l := by
  induction l with
  | nil => rfl
  | cons c cs ih =>
    rw [List.all_cons, Bool.and_eq_true] at h
    rw [List.foldr_cons, ih h.2, escChar_simple c h.1]
    rfl

theorem escStr_simple (s : String) (h : simpleStr s = true) : escStr s = s := by
  obtain ⟨l⟩ := s
  exact escStr_simple_list l h

theorem parseStringBody_simple_list :
    ∀ (l : List Char) (f : Nat) (r : List Char), l.all simpleChar = true →
      l.length + 1 ≤ f →
      parseStringBody f (l ++ '"' :: r) = some (String.mk l, r) := by
  intro l
  induction l with
  | nil =>
    intro f r _ hf
    cases f with
    | zero => exact absurd hf (by omega)
    | succ f' =>
      show parseStringBody (f' + 1) ('"' :: r) = some (String.mk [], r)
      simp only [parseStringBody]
      simp
  | cons c cs ih =>
    intro f r h hf
    rw [List.all_cons, Bool.and_eq_true] at h
    obtain ⟨h1, h2, h3, h4⟩ := simpleChar_facts c h.1
    have hlt : ¬(c.toNat < 32) := by omega
    cases f with
    | zero => exact absurd hf (by simp at hf ⊢)
    | succ f' =>
      show parseStringBody (f' + 1) (c :: (cs ++ '"' :: r)) = _
      simp only [parseStringBody]
      rw [if_neg h3, if_neg h4, if_neg hlt,
        ih f' r h.2 (by simp at hf; omega)]
      rfl

theorem parseStringBody_simple (t : String) (f : Nat) (r : List Char)
    (h : simpleStr t = true) (hf : t.data.length + 1 ≤ f) :
    parseStringBody f (t.data ++ '"' :: r) = some (t, r) := by
  obtain ⟨l⟩ := t
  exact parseStringBody_simple_list l f r h hf

theorem dumps_output_empty_data (t : String) (h : simpleStr t = true) :
    (pyJsonDumps (outputJson t [])).data
      = lbr :: '\n' :: ' ' :: ' ' :: '"' :: ("summary".data ++ '"' :: ':' :: ' ' :: '"' ::
          (t.data ++ '"' :: ',' :: '\n' :: ' ' :: ' ' :: '"' ::
            ("dependencies".data ++ '"' :: ':' :: ' ' :: '[' :: ']' :: '\n' :: [rbr]))) := by
  have e1 : escStr t = t := escStr_simple t h
  have e2 : escStr "summary" = "summary" := rfl
  have e3 : escStr "dependencies" = "dependencies" := rfl
  have d1 : ("\x7b\n" : String).data = [lbr, '\n'] := rfl
  have d2 : ("  " : String).data = [' ', ' '] := rfl
  have d3 : ("\"" : String).data = ['"'] := rfl
  have d4 : (": " : String).data = [':', ' '] := rfl
  have d5 : (",\n" : String).data = [',', '\n'] := rfl
  have d6 : ("[]" : String).data = ['[', ']'] := rfl
  have d7 : ("\n" : String).data = ['\n'] := rfl
  have d8 : ("\x7d" : String).data = [rbr] := rfl
  have d9 : ("" : String).data = ([] : List Char) := rfl
  simp only [pyJsonDumps, outputJson, List.map_nil, dumpVal, dumpObjItems, dumpStr,
    nspaces, e1, e2, e3, String.data_append, d1, d2, d3, d4, d5, d6, d7, d8, d9,
    List.append_assoc, List.cons_append, List.nil_append, List.append_nil]
  rfl

theorem valStrStep (t : String) (h : simpleStr t = true) (f : Nat) (r : List Char) :
    parseMut (f + 1) (ParseReq.val ('"' :: (t.data ++ '"' :: r))) = some (JValue.jstr t, r) := by
  show (match parseStringBody ((t.data ++ '"' :: r).length) (t.data ++ '"' :: r) with
        | some (s, rr) => some (JValue.jstr s, rr)
        | none => none) = some (JValue.jstr t, r)
  rw [parseStringBody_simple t _ r h (by simp [List.length_append])]

theorem objStep2 (t : String) (h : simpleStr t = true) (f : Nat) :
    parseMut (f + 3) (ParseReq.objFields
        ('"' :: ("summary".data ++ '"' :: ':' :: ' ' :: '"' ::
          (t.data ++ '"' :: ',' :: '\n' :: ' ' :: ' ' :: '"' ::
            ("dependencies".data ++ '"' :: ':' :: ' ' :: '[' :: ']' :: '\n' :: [rbr])))) [])
      = some (JValue.jobj [("summary", JValue.jstr t), ("dependencies", JValue.jarr [])],
          []) := by
  show (match parseMut (f + 1 + 1) (ParseReq.val ('"' :: (t.data ++ '"' :: ',' :: '\n' ::
          ' ' :: ' ' :: '"' ::
          ("dependencies".data ++ '"' :: ':' :: ' ' :: '[' :: ']' :: '\n' :: [rbr])))) with
        | some (v, r3) =>
          match skipWs r3 with
          | ',' :: r4 =>
            parseMut (f + 1 + 1)
              (ParseReq.objFields (skipWs r4) (dictInsert [] "summary" v))
          | d :: r4 =>
            if d = rbr then some (JValue.jobj (dictInsert [] "summary" v), r4) else none
          | [] => none
        | none => none) = _
  rw [valStrStep t h (f + 1)
    (',' :: '\n' :: ' ' :: ' ' :: '"' ::
      ("dependencies".data ++ '"' :: ':' :: ' ' :: '[' :: ']' :: '\n' :: [rbr]))]
  rfl

/-- Round trip for the empty-map analysis artifact: serializing
`{"summary": t, "dependencies": []}` with `json.dumps(..., indent=2)` and
re-parsing it with `json.loads` recovers the same object, for any summary
text of simple characters. -/
theorem jsonLoads_dumps_output_empty (t : String) (h : simpleStr t = true) :
    jsonLoads (pyJsonDumps (outputJson t []))
      = some (JValue.jobj [("summary", JValue.jstr t),
          ("dependencies", JValue.jarr [])]) := by
  have hd := dumps_output_empty_data t h
  unfold jsonLoads
  rw [hd]
  have h7 : ("summary".data).length = 7 := rfl
  have h12 : ("dependencies".data).length = 12 := rfl
  have hlen : (lbr :: '\n' :: ' ' :: ' ' :: '"' ::
      ("summary".data ++ '"' :: ':' :: ' ' :: '"' ::
        (t.data ++ '"' :: ',' :: '\n' :: ' ' :: ' ' :: '"' ::
          ("dependencies".data ++ '"' :: ':' :: ' ' :: '[' :: ']' :: '\n' :: [rbr])))).length
      = t.data.length + 41 := by
    simp [List.length_append, h7, h12]
  rw [hlen]
  have hfe : 2 * (t.data.length + 41) + 2 = 2 * t.data.length + 80 + 4 := by ring
  rw [hfe]
  have hws : skipWs (lbr :: '\n' :: ' ' :: ' ' :: '"' ::
      ("summary".data ++ '"' :: ':' :: ' ' :: '"' ::
        (t.data ++ '"' :: ',' :: '\n' :: ' ' :: ' ' :: '"' ::
          ("dependencies".data ++ '"' :: ':' :: ' ' :: '[' :: ']' :: '\n' :: [rbr]))))
      = lbr :: '\n' :: ' ' :: ' ' :: '"' ::
      ("summary".data ++ '"' :: ':' :: ' ' :: '"' ::
        (t.data ++ '"' :: ',' :: '\n' :: ' ' :: ' ' :: '"' ::
          ("dependencies".data ++ '"' :: ':' :: ' ' :: '[' :: ']' :: '\n' :: [rbr]))) := by
    simp [skipWs, List.dropWhile_cons, show jsonWs lbr = false from by decide]
  rw [hws]
  show (match parseMut (2 * t.data.length + 80 + 3) (ParseReq.objFields
        ('"' :: ("summary".data ++ '"' :: ':' :: ' ' :: '"' ::
          (t.data ++ '"' :: ',' :: '\n' :: ' ' :: ' ' :: '"' ::
            ("dependencies".data ++ '"' :: ':' :: ' ' :: '[' :: ']' :: '\n' :: [rbr])))) []) with
      | some (v, rest) => if (skipWs rest).isEmpty then some v else none
      | none => none) = _
  rw [objStep2 t h (2 * t.data.length + 80)]
  rfl

/-- C9: running `summarize_repo` on the empty file-content map does not
crash — it is a total function of the LLM oracle, every oracle outcome
landing in one of the three handled branches — and on the normal path
(truthy LLM response) it writes the fixed-path artifact
`repo_analysis.json`, whose content is well-formed JSON parsing back to an
object carrying the response text as summary and an empty dependency
list. -/
theorem summarize_repo_empty_map (genContent : String → Except String LlmResponse)
    (r : LlmResponse) (hllm : genContent (buildPrompt []) = Except.ok r)
    (ht : r.truthy = true) (hs : simpleStr r.text = true) :
    summarize_repo genContent []
      = { ret := pyJsonDumps (outputJson r.text []),
          written := some (pyJsonDumps (outputJson r.text [])) } ∧
    jsonLoads (pyJsonDumps (outputJson r.text []))
      = some (JValue.jobj [("summary", JValue.jstr r.text),
          ("dependencies", JValue.jarr [])]) := by
  constructor
  · simp only [summarize_repo, show extract_dependencies [] = Except.ok [] from rfl,
      hllm, ht, if_true]
  · exact jsonLoads_dumps_output_empty r.text hs

/-- Witness for `summarize_repo_empty_map` with a truthy oracle. -/
theorem summarize_repo_empty_map_witness :
    summarize_repo (fun _ => Except.ok ⟨true, "A small demo repository."⟩) []
      = { ret := pyJsonDumps (outputJson "A small demo repository." []),
          written := some (pyJsonDumps (outputJson "A small demo repository." [])) } ∧
    jsonLoads (pyJsonDumps (outputJson "A small demo repository." []))
      = some (JValue.jobj [("summary", JValue.jstr "A small demo repository."),
          ("dependencies", JValue.jarr [])]) :=
  summarize_repo_empty_map (fun _ => Except.ok ⟨true, "A small demo repository."⟩)
    ⟨true, "A small demo repository."⟩ rfl rfl (by decide)

end GhAnalyzer
